import Mathlib

/-!
Verification of the candidate-discovery pipeline of the trading-dashboard
repository.  The Lean definitions below are shallow embeddings of the Python
functions in `agents/universe_screener.py` (called "v1" here),
`agents/universe_screener_v2.py` ("v2") and `agents/screener_worker.py`
("worker").  Python floats are modelled as `ℚ`, Python `None`-able values as
`Option`, Python exceptions of external lookups as `Except Unit` oracles.
-/

/-- Python truthiness of a nullable number: `None` and `0` are falsy. -/
def truthyQ : Option ℚ → Bool
  | none => false
  | some x => decide (x ≠ 0)

/-- Python `(x or 0)` on a nullable number. -/
def qor0 : Option ℚ → ℚ
  | none => 0
  | some x => x

/-- Python truthiness of a nullable boolean (`None` is falsy). -/
def truthyOB : Option Bool → Bool
  | none => false
  | some b => b

/-- Python truthiness of a nullable string (`None` and `""` are falsy). -/
def truthyStr : Option String → Bool
  | none => false
  | some s => decide (s ≠ "")

/-- `ramp` from both screeners: linear interpolation from 0 to `maxPts`
between the breakpoints `lo` and `hi`, clamped outside, 0 for `None`. -/
def ramp (x : Option ℚ) (lo hi maxPts : ℚ) : ℚ :=
  match x with
  | none => 0
  | some x => if x ≤ lo then 0 else if hi ≤ x then maxPts else maxPts * (x - lo) / (hi - lo)

/-- `momentum_points` from both screeners: capped sum of the 5-day and the
21-day ramps (each guarded by Python truthiness of the return). -/
def momentum_points (r5 r21 : Option ℚ) : ℚ :=
  let p5 := if truthyQ r5 then ramp (r5.map (· * 100)) 2 25 10 else 0
  let p21 := if truthyQ r21 then ramp (r21.map (· * 100)) 8 40 15 else 0
  min 25 (p5 + p21)

/-- `squeeze_synergy` from `universe_screener.py`. -/
def squeeze_synergy (float_shares si_pct borrow_fee : Option ℚ) : ℚ :=
  let pts1 : ℚ := match float_shares with
    | some f => if f ≤ 20000000 then 10 else 0
    | none => 0
  let pts2 : ℚ := match borrow_fee with
    | some b => if 50 ≤ b then 10 else if 30 ≤ b then 6 else 0
    | none => 0
  let pts3 : ℚ := if 15 ≤ qor0 si_pct ∧ 30 ≤ qor0 borrow_fee then 6 else 0
  pts1 + pts2 + pts3

/-- `detect_pr_catalyst` from `universe_screener.py`: the news lookup is a
stub in the source ("Placeholder for news API integration"), so the bonus is
always 0. -/
def detect_pr_catalyst_bonus (_symbol : String) : ℚ := 0

/-- `detect_premarket_spark` from `universe_screener.py`, returning the
`spark_bonus`.  `relvol_pm` is the early-session relative volume computed
from the external `minute_bars` lookup inside the inner `try:` block (it
stays 0 when the lookup fails or yields no bars), passed here as an input. -/
def detect_premarket_spark_bonus (prev_close current_price : Option ℚ) (relvol_pm : ℚ) : ℚ :=
  if ¬ truthyQ prev_close = true ∨ ¬ truthyQ current_price = true then 0
  else
    let gap_pct := (qor0 current_price - qor0 prev_close) / qor0 prev_close * 100
    if 10 ≤ |gap_pct| ∧ 3/2 ≤ relvol_pm then 8 else 0

/-- `detect_options_gex_nudge` from `universe_screener.py`, returning
`nudgePoints`.  The options data is stubbed in the source
(`ntm_call_oi_rising = False`, `net_gamma_exposure = 0.0`). -/
def detect_options_gex_nudge_points (_symbol : String) : ℚ :=
  let ntm_call_oi_rising := false
  let net_gamma_exposure : ℚ := 0
  let pts1 : ℚ := if ntm_call_oi_rising then 6 else 0
  let pts2 : ℚ :=
    if 10000000000 < |net_gamma_exposure| then
      (if 0 < net_gamma_exposure then 4 else -2)
    else 0
  pts1 + pts2

/-- `drawdown_and_spread_penalties` from `universe_screener.py`. -/
def drawdown_and_spread_penalties (hod_drawdown_pct bid_ask_spread_pct : Option ℚ) : ℚ :=
  let p1 : ℚ := if truthyQ hod_drawdown_pct = true ∧ 20 ≤ qor0 hod_drawdown_pct then -8 else 0
  let p2 : ℚ :=
    if truthyQ bid_ask_spread_pct = true ∧ 6/5 < qor0 bid_ask_spread_pct then
      (if 2 < qor0 bid_ask_spread_pct then -5 else -3)
    else 0
  p1 + p2

/-- `live_vs_cached_drift_guard` from `universe_screener.py`, returning the
`drift_penalty` field. -/
def drift_guard_penalty (live_price cached_price : Option ℚ) : ℚ :=
  if ¬ truthyQ live_price = true ∨ ¬ truthyQ cached_price = true then 0
  else if 10 ≤ |qor0 live_price - qor0 cached_price| / qor0 cached_price * 100 then -8 else 0

/-- A recent-runner record as consumed by `theme_boost_sector_herd`. -/
structure Runner where
  sector : Option String
  relvol : ℚ
  day_change_pct : ℚ
  symbol : String
deriving DecidableEq

/-- `theme_boost_sector_herd` from `universe_screener.py`, returning
`theme_bonus`.  `score_row` calls it with an empty `recent_runners` list
(the source passes `[]` with a TODO). -/
def theme_boost_bonus (symbol : String) (sector : Option String) (recent_runners : List Runner) : ℚ :=
  if ¬ truthyStr sector = true ∨ recent_runners = [] then 0
  else
    let sector_runners :=
      (recent_runners.filter (fun r =>
        r.sector = sector ∧ 2 ≤ r.relvol ∧ 10 ≤ r.day_change_pct ∧ r.symbol ≠ symbol)).length
    if 2 ≤ sector_runners then 6 else 0

/-- `live_penalties` from `universe_screener.py` (`is not None` guards,
not truthiness; the `ema9_ge_ema20` parameter is unused in the source). -/
def live_penalties (price vwap rsi : Option ℚ) (_ema9_ge_ema20 : Option Bool)
    (drawdown_from_hod : Option ℚ) : ℚ :=
  let p1 : ℚ := match price, vwap with
    | some p, some v => if p < v then -8 else 0
    | _, _ => 0
  let p2 : ℚ := match rsi with
    | some r => if 75 < r then -6 else 0
    | none => 0
  let p3 : ℚ := match drawdown_from_hod with
    | some d => if 1/5 ≤ d then -8 else 0
    | none => 0
  p1 + p2 + p3

/-- `days_to_cover_bonus` from `universe_screener.py`. -/
def days_to_cover_bonus (short_shares adv : Option ℚ) : ℚ :=
  if ¬ truthyQ short_shares = true ∨ ¬ truthyQ adv = true ∨ qor0 adv ≤ 0 then 0
  else
    let dtc := qor0 short_shares / qor0 adv
    if 4 ≤ dtc then 8 else if 2 ≤ dtc then 4 else 0

/-- `live_vs_cached_sanity_check` from `universe_screener.py`. -/
def live_vs_cached_sanity_check (live_price cached_price : Option ℚ) (score : ℚ) : ℚ :=
  if ¬ truthyQ live_price = true ∨ ¬ truthyQ cached_price = true then score
  else if 1/10 ≤ |qor0 live_price - qor0 cached_price| / qor0 cached_price then
    max 0 (score - 8)
  else score

/-- The PR keyword list of `detect_early_catalysts`. -/
def early_catalyst_keywords : List String :=
  ["FDA", "approval", "partnership", "licensing", "contract", "uplist", "financing", "acquisition"]

/-- `detect_early_catalysts` from `universe_screener.py`: +15 for a PR
keyword in the recent news text, +12 for a pre-market gap with volume. -/
def detect_early_catalysts (recent_news : Option String) (premarket_gap_pct relvol_pm : Option ℚ) : ℚ :=
  let news_text := (recent_news.getD "").toLower
  let p1 : ℚ :=
    if early_catalyst_keywords.any (fun k => decide (List.IsInfix k.toLower.data news_text.data))
    then 15 else 0
  let p2 : ℚ := if 10 ≤ qor0 premarket_gap_pct ∧ 3/2 ≤ qor0 relvol_pm then 12 else 0
  p1 + p2

/-- A feature row as read by `score_row` through `row.get(...)`: every field
may be missing. -/
structure ScoreRow where
  symbol : String := ""
  ret_5d : Option ℚ := none
  ret_21d : Option ℚ := none
  atr_pct : Option ℚ := none
  avg_dollar : Option ℚ := none
  adv : Option ℚ := none
  breakout20 : Option Bool := none
  recent_news : Option String := none
  premarket_gap_pct : Option ℚ := none
  relvol_pm : Option ℚ := none
  float_shares : Option ℚ := none
  short_interest_pct : Option ℚ := none
  borrow_fee_pct : Option ℚ := none
  short_shares : Option ℚ := none
  prev_close : Option ℚ := none
  price : Option ℚ := none
  live_price : Option ℚ := none
  live_vwap : Option ℚ := none
  live_rsi : Option ℚ := none
  ema9_ge_ema20 : Option Bool := none
  drawdown_from_hod : Option ℚ := none
  hod_drawdown_pct : Option ℚ := none
  bid_ask_spread_pct : Option ℚ := none
  sector : Option String := none
deriving DecidableEq

/-- Python `max(lo, min(hi, x))`, the final clamp of both scoring functions. -/
def clampQ (lo hi x : ℚ) : ℚ := max lo (min hi x)

/-- The additive part of `score_row` (`universe_screener.py`), up to and
including the `live_vs_cached_sanity_check` rebase; the caller clamps it.
`spark_relvol_pm` is the externally computed early-session relative volume
used by `detect_premarket_spark` (0 when its `minute_bars` lookup fails). -/
def score_row_sum (row : ScoreRow) (relvol spark_relvol_pm : ℚ) : ℚ :=
  let score : ℚ := 50
  let score := score + momentum_points row.ret_5d row.ret_21d
  let score := score +
    (if 3/100 ≤ qor0 row.atr_pct then 10 else if 1/50 ≤ qor0 row.atr_pct then 5 else 0)
  let score := score +
    (if 2 ≤ relvol then 15 else if 17/10 ≤ relvol then 10 else if 3/2 ≤ relvol then 4 else 0)
  let score := score +
    (if 50000000 ≤ qor0 row.avg_dollar then 8 else if 20000000 ≤ qor0 row.avg_dollar then 5 else 0)
  let score := score + (if truthyOB row.breakout20 then 12 else 0)
  let score := score + detect_early_catalysts row.recent_news row.premarket_gap_pct row.relvol_pm
  let score := score + squeeze_synergy row.float_shares row.short_interest_pct row.borrow_fee_pct
  let score := score + days_to_cover_bonus row.short_shares row.adv
  let score := score + detect_pr_catalyst_bonus row.symbol
  let score := score + detect_premarket_spark_bonus row.prev_close row.price spark_relvol_pm
  let score := score + detect_options_gex_nudge_points row.symbol
  let score := score + drawdown_and_spread_penalties row.hod_drawdown_pct row.bid_ask_spread_pct
  let score := score + drift_guard_penalty row.live_price row.price
  let score := score + theme_boost_bonus row.symbol row.sector []
  let score := score +
    live_penalties row.live_price row.live_vwap row.live_rsi row.ema9_ge_ema20 row.drawdown_from_hod
  live_vs_cached_sanity_check row.live_price row.price score

/-- `score_row` from `universe_screener.py`: the additive score clamped by
`max(30, min(100, score))`. -/
def score_row (row : ScoreRow) (relvol spark_relvol_pm : ℚ) : ℚ :=
  clampQ 30 100 (score_row_sum row relvol spark_relvol_pm)

/-- The additive part of `score_row_cheap` (`universe_screener_v2.py`). -/
def score_row_cheap_sum (row : ScoreRow) (relvol : ℚ) : ℚ :=
  let r5 := qor0 row.ret_5d
  let r21 := qor0 row.ret_21d
  let price := qor0 row.price
  let atr_pct := qor0 row.atr_pct * 100
  let avg_dollar := qor0 row.avg_dollar
  let score : ℚ := 45
  let momentum_score := momentum_points (some r5) (some r21)
  let momentum_score :=
    if 5/2 ≤ relvol then min 30 (momentum_score + 10)
    else if 2 ≤ relvol then min 30 (momentum_score + 7)
    else if 3/2 ≤ relvol then min 30 (momentum_score + 4)
    else momentum_score
  let score := score + momentum_score
  let volatility_score : ℚ :=
    (if 8 ≤ atr_pct then 15 else if 5 ≤ atr_pct then 10
     else if 3 ≤ atr_pct then 6 else if 2 ≤ atr_pct then 3 else 0)
    + (if truthyOB row.breakout20 then 5 else 0)
  let score := score + min 20 volatility_score
  let score := score + (if price ≤ 2 then 8 else if price ≤ 5 then 5 else if price ≤ 10 then 2 else 0)
  let score := score +
    (if price < 5 then
       (if 2000000 ≤ avg_dollar then 3 else if 1000000 ≤ avg_dollar then 2 else 0)
     else
       (if 10000000 ≤ avg_dollar then 3 else if 5000000 ≤ avg_dollar then 2 else 0))
  score

/-- `score_row_cheap` from `universe_screener_v2.py`: the additive score
clamped by `max(35, min(100, score))`. -/
def score_row_cheap (row : ScoreRow) (relvol : ℚ) : ℚ :=
  clampQ 35 100 (score_row_cheap_sum row relvol)

/-- Python `round` to the nearest integer with half-to-even tie-breaking. -/
def pyRound (x : ℚ) : ℤ :=
  if x - ⌊x⌋ < 1/2 then ⌊x⌋
  else if 1/2 < x - ⌊x⌋ then ⌊x⌋ + 1
  else if ⌊x⌋ % 2 = 0 then ⌊x⌋ else ⌊x⌋ + 1

/-- Python `int(...)`: truncation toward zero. -/
def pyTrunc (x : ℚ) : ℤ := if 0 ≤ x then ⌊x⌋ else ⌈x⌉

/-- Python `round(x, d)`. -/
def pyRoundTo (x : ℚ) (d : ℕ) : ℚ := (pyRound (x * 10 ^ d) : ℚ) / 10 ^ d

/-- `short_metrics` result as consumed by the late enrichment pass
(`short_metrics(sym) or {}` followed by `.get(...) or 0`). -/
structure ShortMetrics where
  short_interest : Option ℚ := none
  borrow_fee : Option ℚ := none
  utilization : Option ℚ := none
deriving DecidableEq

/-- The squeeze bonus of the late short-interest enrichment pass in
`UniverseScreener.screen_universe`. -/
def short_enrich_bonus (sm : ShortMetrics) : ℤ :=
  if 1/5 ≤ qor0 sm.short_interest ∧ (1/5 ≤ qor0 sm.borrow_fee ∨ 17/20 ≤ qor0 sm.utilization)
  then 10 else 0

/-- The enrichment-pass score update `c["score"] = min(100, c["score"] + bonus)`. -/
def enriched_score (score : ℤ) (sm : ShortMetrics) : ℤ := min 100 (score + short_enrich_bonus sm)

/-- The five action tiers of both screeners. -/
inductive TradeAction where
  | BUY
  | EARLY_READY
  | PRE_BREAKOUT
  | WATCHLIST
  | MONITOR
deriving DecidableEq

/-- `map_action` (identical in both screeners): plain score-threshold tiers. -/
def map_action (score : ℚ) : TradeAction :=
  if 75 ≤ score then TradeAction.BUY
  else if 65 ≤ score then TradeAction.EARLY_READY
  else if 55 ≤ score then TradeAction.PRE_BREAKOUT
  else if 50 ≤ score then TradeAction.WATCHLIST
  else TradeAction.MONITOR

/-- The `below_vwap` guard of `map_action_with_tape`:
`live_price and live_vwap and live_price < live_vwap` (Python truthiness). -/
def below_vwap (live_price live_vwap : Option ℚ) : Bool :=
  truthyQ live_price && truthyQ live_vwap &&
    (match live_price, live_vwap with
     | some p, some v => decide (p < v)
     | _, _ => false)

/-- `map_action_with_tape` from `universe_screener.py`: at/above the
PRE_BREAKOUT threshold the tier is hard-capped at PRE_BREAKOUT when price is
below VWAP or the EMA trend is not affirmatively bullish. -/
def map_action_with_tape (score : ℚ) (live_price live_vwap : Option ℚ)
    (ema9_ge_ema20 : Option Bool) : TradeAction :=
  let base := map_action score
  if 55 ≤ score then
    if below_vwap live_price live_vwap || !truthyOB ema9_ge_ema20 then TradeAction.PRE_BREAKOUT
    else base
  else base

theorem clampQ_bounds (lo hi x : ℚ) (h : lo ≤ hi) : lo ≤ clampQ lo hi x ∧ clampQ lo hi x ≤ hi :=
  ⟨le_max_left _ _, max_le h (min_le_left _ _)⟩

theorem pyRound_mem (x : ℚ) : pyRound x = ⌊x⌋ ∨ pyRound x = ⌊x⌋ + 1 := by
  unfold pyRound
  split_ifs <;> simp

theorem pyRound_bounds (lo hi : ℤ) (x : ℚ) (hlo : (lo : ℚ) ≤ x) (hhi : x ≤ (hi : ℚ)) :
    lo ≤ pyRound x ∧ pyRound x ≤ hi := by
  have h1 : lo ≤ ⌊x⌋ := Int.le_floor.mpr hlo
  have h2 : ⌊x⌋ ≤ hi := by
    have := Int.floor_le_floor hhi
    simpa using this
  constructor
  · rcases pyRound_mem x with h | h <;> omega
  · unfold pyRound
    split_ifs with hc1 hc2 hc3
    · exact h2
    · -- the fractional part exceeds 1/2, so ⌊x⌋ < hi
      have hfl : (⌊x⌋ : ℚ) + 1/2 < x := by linarith
      have : (⌊x⌋ : ℚ) < (hi : ℚ) - 1/2 := by linarith
      have : (⌊x⌋ : ℚ) < (hi : ℚ) := by linarith
      have : ⌊x⌋ < hi := by exact_mod_cast this
      omega
    · exact h2
    · have hfl : (⌊x⌋ : ℚ) + 1/2 ≤ x := by linarith
      have : (⌊x⌋ : ℚ) < (hi : ℚ) := by linarith
      have : ⌊x⌋ < hi := by exact_mod_cast this
      omega

theorem pyTrunc_bounds (lo hi : ℤ) (x : ℚ) (hlo : (lo : ℚ) ≤ x) (hhi : x ≤ (hi : ℚ)) :
    lo ≤ pyTrunc x ∧ pyTrunc x ≤ hi := by
  unfold pyTrunc
  split_ifs with h0
  · exact ⟨Int.le_floor.mpr hlo, by simpa using Int.floor_le_floor hhi⟩
  · constructor
    · have := Int.ceil_le_ceil hlo
      simpa using this
    · exact Int.ceil_le.mpr hhi

theorem short_enrich_bonus_range (sm : ShortMetrics) :
    0 ≤ short_enrich_bonus sm ∧ short_enrich_bonus sm ≤ 10 := by
  unfold short_enrich_bonus
  split_ifs <;> simp

theorem score_row_range (row : ScoreRow) (relvol spark : ℚ) :
    30 ≤ score_row row relvol spark ∧ score_row row relvol spark ≤ 100 :=
  clampQ_bounds 30 100 _ (by norm_num)

theorem score_row_cheap_range (row : ScoreRow) (relvol : ℚ) :
    35 ≤ score_row_cheap row relvol ∧ score_row_cheap row relvol ≤ 100 :=
  clampQ_bounds 35 100 _ (by norm_num)

/-- C1: the score stored for a candidate — `int(round(score_row(...)))` in
`universe_screener.py`, then updated by the late short-interest enrichment
pass `min(100, score + bonus)` — is an integer between the configured floor
30 and 100, for every feature row, relative-volume value, spark input and
short-metrics result; likewise `int(score_row_cheap(...))` in
`universe_screener_v2.py` is an integer between its floor 35 and 100. -/
theorem score_bounded_after_enrichment :
    ∀ (row : ScoreRow) (relvol spark : ℚ) (sm : ShortMetrics) (row2 : ScoreRow) (relvol2 : ℚ),
      (30 ≤ enriched_score (pyRound (score_row row relvol spark)) sm
        ∧ enriched_score (pyRound (score_row row relvol spark)) sm ≤ 100)
      ∧ (35 ≤ pyTrunc (score_row_cheap row2 relvol2)
        ∧ pyTrunc (score_row_cheap row2 relvol2) ≤ 100) := by
  intro row relvol spark sm row2 relvol2
  obtain ⟨hl, hu⟩ := score_row_range row relvol spark
  obtain ⟨hrl, hru⟩ :=
    pyRound_bounds 30 100 (score_row row relvol spark)
      (by exact_mod_cast hl) (by exact_mod_cast hu)
  obtain ⟨hbl, hbu⟩ := short_enrich_bonus_range sm
  refine ⟨⟨?_, ?_⟩, ?_⟩
  · unfold enriched_score
    have : (30 : ℤ) ≤ pyRound (score_row row relvol spark) + short_enrich_bonus sm := by omega
    exact le_min (by norm_num) this
  · exact min_le_left _ _
  · obtain ⟨h2l, h2u⟩ := score_row_cheap_range row2 relvol2
    exact pyTrunc_bounds 35 100 (score_row_cheap row2 relvol2)
      (by exact_mod_cast h2l) (by exact_mod_cast h2u)

theorem truthyOB_eq_true_iff (e : Option Bool) : truthyOB e = true ↔ e = some true := by
  cases e <;> simp [truthyOB]

/-- C3: at or above the PRE_BREAKOUT threshold 55, whenever the tape guard
condition holds (live price below live VWAP, or the EMA trend not bullish),
`map_action_with_tape` returns exactly PRE_BREAKOUT — never BUY or
EARLY_READY — no matter how high the score is; below 55 it returns the plain
score-threshold mapping (WATCHLIST at 50, else MONITOR). -/
theorem tape_guard_caps_action :
    ∀ (s : ℚ) (p v : Option ℚ) (e : Option Bool),
      (55 ≤ s → (below_vwap p v = true ∨ truthyOB e = false) →
        map_action_with_tape s p v e = TradeAction.PRE_BREAKOUT)
      ∧ (s < 55 → map_action_with_tape s p v e = map_action s
          ∧ map_action s = (if 50 ≤ s then TradeAction.WATCHLIST else TradeAction.MONITOR)) := by
  intro s p v e
  constructor
  · intro h55 hg
    unfold map_action_with_tape
    rw [if_pos h55]
    rcases hg with h | h
    · rw [if_pos]
      simp [h]
    · rw [if_pos]
      simp [h]
  · intro h55
    constructor
    · unfold map_action_with_tape
      rw [if_neg (not_le.mpr h55)]
    · unfold map_action
      rw [if_neg (by linarith : ¬ (75:ℚ) ≤ s), if_neg (by linarith : ¬ (65:ℚ) ≤ s),
        if_neg (by linarith : ¬ (55:ℚ) ≤ s)]

theorem tape_guard_caps_action_witness :
    map_action_with_tape 95 (some 10) (some 11) (some true) = TradeAction.PRE_BREAKOUT :=
  (tape_guard_caps_action 95 (some 10) (some 11) (some true)).1 (by norm_num)
    (Or.inl (by decide))

/-- C10: when the live EMA flag is absent (`None`), the tape guard treats the
tape as not bullish, so every candidate scoring at least 55 is classified
PRE_BREAKOUT; consequently BUY and EARLY_READY are reachable only when the
row affirmatively carries `ema9_ge_ema20 = True` and the live price is not
below the live VWAP. -/
theorem ema_absent_treated_bearish :
    ∀ (s : ℚ) (p v : Option ℚ) (e : Option Bool),
      (55 ≤ s → map_action_with_tape s p v none = TradeAction.PRE_BREAKOUT)
      ∧ ((map_action_with_tape s p v e = TradeAction.BUY
            ∨ map_action_with_tape s p v e = TradeAction.EARLY_READY) →
          e = some true ∧ below_vwap p v = false) := by
  intro s p v e
  constructor
  · intro h55
    unfold map_action_with_tape
    rw [if_pos h55]
    have hg : (below_vwap p v || !truthyOB none) = true := by simp [truthyOB]
    rw [if_pos hg]
  · intro hba
    by_cases h55 : 55 ≤ s
    · unfold map_action_with_tape at hba
      rw [if_pos h55] at hba
      cases hg : (below_vwap p v || !truthyOB e) with
      | true =>
        rw [hg] at hba
        simp at hba
      | false =>
        cases hb : below_vwap p v with
        | true =>
          rw [hb] at hg
          simp at hg
        | false =>
          cases ht : truthyOB e with
          | false =>
            rw [ht] at hg
            simp at hg
          | true => exact ⟨(truthyOB_eq_true_iff e).mp ht, rfl⟩
    · exfalso
      unfold map_action_with_tape at hba
      rw [if_neg h55] at hba
      unfold map_action at hba
      rw [if_neg (by linarith : ¬ (75:ℚ) ≤ s), if_neg (by linarith : ¬ (65:ℚ) ≤ s),
        if_neg (by linarith : ¬ (55:ℚ) ≤ s)] at hba
      rcases hba with h | h <;> revert h <;> split_ifs <;> simp

theorem ema_absent_treated_bearish_witness :
    map_action_with_tape 99 (some 20) (some 10) none = TradeAction.PRE_BREAKOUT :=
  (ema_absent_treated_bearish 99 (some 20) (some 10) none).1 (by norm_num)

/-- A row of the cached feature snapshot (`universe_features.parquet` /
the per-symbol metrics dict of the worker): all numeric fields present. -/
structure FeatureRow where
  symbol : String
  price : ℚ := 0
  adv : ℚ := 0
  avg_dollar : ℚ := 0
  atr_pct : ℚ := 0
  ret_5d : ℚ := 0
  ret_21d : ℚ := 0
  breakout20 : Bool := false
  day_range : ℚ := 0
deriving DecidableEq

/-- `np.nanpercentile(a, p)` with the default linear interpolation:
`none` on an empty pool (NaN in the source). -/
def percentile (a : List ℚ) (p : ℕ) : Option ℚ :=
  match a with
  | [] => none
  | _ :: _ =>
    let vs := List.insertionSort (· ≤ ·) a
    let n := a.length
    let h : ℚ := ((n : ℚ) - 1) * p / 100
    let i : ℕ := ⌊h⌋.toNat
    let lo := vs.getD i 0
    let hi := vs.getD (i + 1) lo
    some (lo + (h - (i : ℚ)) * (hi - lo))

/-- Pandas `x >= thr` where `thr` may be NaN (comparison with NaN is False). -/
def geOptQ (x : ℚ) (thr : Option ℚ) : Bool :=
  match thr with
  | none => false
  | some t => decide (t ≤ x)

/-- `pandas.concat(...).drop_duplicates(subset=["symbol"])`: keep the first
occurrence of each symbol. -/
def dedupBySymbolGo (seen : List String) : List FeatureRow → List FeatureRow
  | [] => []
  | r :: rs =>
    if r.symbol ∈ seen then dedupBySymbolGo seen rs
    else r :: dedupBySymbolGo (r.symbol :: seen) rs

/-- De-duplication by symbol, keeping first occurrences. -/
def dedupBySymbol (l : List FeatureRow) : List FeatureRow := dedupBySymbolGo [] l

/-- One evaluation of the survivor union in `UniverseScreener.screen_universe`:
percentile-thresholded base set unioned with the `ret_5d ≥ 0.10 or breakout20`
momentum lane, de-duplicated by symbol. -/
def survivors_v1 (rows : List FeatureRow) (a d t : ℕ) : List FeatureRow :=
  let a_thr := percentile (rows.map (fun r => r.adv)) a
  let d_thr := percentile (rows.map (fun r => r.avg_dollar)) d
  let t_thr := percentile (rows.map (fun r => r.atr_pct)) t
  let base := rows.filter (fun r =>
    geOptQ r.adv a_thr && geOptQ r.avg_dollar d_thr && geOptQ r.atr_pct t_thr)
  let hot := rows.filter (fun r => decide ((1/10 : ℚ) ≤ r.ret_5d) || r.breakout20)
  dedupBySymbol (base ++ hot)

/-- Python-dict insertion keyed by symbol: update in place when the
key exists, else append. -/
def pyDictInsert (m : List (String × FeatureRow)) (r : FeatureRow) : List (String × FeatureRow) :=
  if m.any (fun p => decide (p.1 = r.symbol)) then
    m.map (fun p => if p.1 = r.symbol then (p.1, r) else p)
  else m ++ [(r.symbol, r)]

/-- The value list of the Python dict built from `l` keyed by symbol. -/
def pyDictValues (l : List FeatureRow) : List FeatureRow :=
  (l.foldl pyDictInsert []).map (fun p => p.2)

/-- One evaluation of the survivor union in `prefilter_symbols`
(`screener_worker.py`): percentile-thresholded base set plus the momentum
lane (`ret_5d` or `day_range` hot), merged through a Python dict. -/
def survivors_worker (rows : List FeatureRow) (laneRet laneRange : ℚ) (a d t : ℕ) :
    List FeatureRow :=
  let adv_thr := percentile (rows.map (fun r => r.adv)) a
  let dol_thr := percentile (rows.map (fun r => r.avg_dollar)) d
  let atr_thr := percentile (rows.map (fun r => r.atr_pct)) t
  let base := rows.filter (fun r =>
    geOptQ r.adv adv_thr && geOptQ r.avg_dollar dol_thr && geOptQ r.atr_pct atr_thr)
  let hot := rows.filter (fun r =>
    decide (laneRet ≤ r.ret_5d) || decide (laneRange ≤ r.day_range))
  pyDictValues (base ++ hot)

/-- The shared `while True:` relaxation loop of both narrowers, fueled.
Each pass recomputes the survivor union at the current percentiles; the loop
exits when `min_keep` survivors are reached or all thresholds sit at their
floors (10/10/20); otherwise each percentile is decremented by `step` and
clamped at its floor.  `none` models running out of fuel. -/
def relaxLoop (surv : ℕ → ℕ → ℕ → List FeatureRow) (minKeep step : ℕ) :
    ℕ → ℕ → ℕ → ℕ → Option (List FeatureRow × ℕ × ℕ × ℕ)
  | _, _, _, 0 => none
  | a, d, t, fuel + 1 =>
    let s := surv a d t
    if minKeep ≤ s.length ∨ (a ≤ 10 ∧ d ≤ 10 ∧ t ≤ 20) then some (s, a, d, t)
    else relaxLoop surv minKeep step (max 10 (a - step)) (max 10 (d - step)) (max 20 (t - step)) fuel

/-- Distance of the three percentile thresholds from their floors; the
strictly decreasing measure of the relaxation loop. -/
def floorGap (a d t : ℕ) : ℕ := (a - 10) + (d - 10) + (t - 20)

theorem relaxLoop_isSome (surv : ℕ → ℕ → ℕ → List FeatureRow) (minKeep step : ℕ)
    (hstep : 1 ≤ step) :
    ∀ (fuel a d t : ℕ), floorGap a d t < fuel →
      (relaxLoop surv minKeep step a d t fuel).isSome = true := by
  intro fuel
  induction fuel with
  | zero =>
    intro a d t h
    exact absurd h (by omega)
  | succ f ih =>
    intro a d t h
    simp only [relaxLoop]
    split
    · rfl
    · rename_i hcond
      rw [not_or] at hcond
      apply ih
      unfold floorGap at h ⊢
      have h2 := hcond.2
      omega

/-- The ranking key of the v1 shortlist:
`sort_values(["avg_dollar","atr_pct","ret_5d","symbol"],
ascending=[False,False,False,True])`. -/
def fkeyV1 (r : FeatureRow) : ℚ ×ₗ ℚ ×ₗ ℚ ×ₗ String :=
  toLex (-r.avg_dollar, toLex (-r.atr_pct, toLex (-r.ret_5d, r.symbol)))

/-- v1 shortlist ranking relation. -/
def featLE_v1 (a b : FeatureRow) : Prop := fkeyV1 a ≤ fkeyV1 b

instance : DecidableRel featLE_v1 :=
  fun a b => inferInstanceAs (Decidable (fkeyV1 a ≤ fkeyV1 b))

/-- The cheap quality score `qscore` of the worker. -/
def qscore (r : FeatureRow) : ℚ := 1/2 * r.avg_dollar + 3/10 * r.atr_pct + 1/5 * r.ret_5d

/-- `survivors.sort(key=qscore, reverse=True)` ranking relation. -/
def qscoreGE (a b : FeatureRow) : Prop := qscore b ≤ qscore a

instance : DecidableRel qscoreGE :=
  fun a b => inferInstanceAs (Decidable (qscore b ≤ qscore a))

/-- The shortlist construction of `UniverseScreener.screen_universe`:
relaxation loop, deterministic ranking, slice to `target_keep`, and the
final fallback slice `max(50, min_keep // 2)` of the ranked full set when
the shortlist came out empty. -/
def screen_shortlist (rows : List FeatureRow) (advPct dolPct atrPct step minKeep targetKeep : ℕ) :
    Option (List String) :=
  match relaxLoop (survivors_v1 rows) minKeep step advPct dolPct atrPct
      (advPct + dolPct + atrPct + 1) with
  | none => none
  | some (surv, _, _, _) =>
    let symbols := ((List.insertionSort featLE_v1 surv).map (fun r => r.symbol)).take targetKeep
    if symbols = [] then
      some (((List.insertionSort featLE_v1 rows).map (fun r => r.symbol)).take
        (max 50 (minKeep / 2)))
    else some symbols

/-- `prefilter_symbols` (`screener_worker.py`), from its computed metric rows
on: empty-pool early return, relaxation loop, `qscore` ranking, slice to
`target_keep`. -/
def prefilter_symbols_model (rows : List FeatureRow)
    (advPct dolPct atrPct step minKeep targetKeep : ℕ) (laneRet laneRange : ℚ) :
    Option (List String) :=
  if rows = [] then some []
  else
    match relaxLoop (survivors_worker rows laneRet laneRange) minKeep step advPct dolPct atrPct
        (advPct + dolPct + atrPct + 1) with
    | none => none
    | some (surv, _, _, _) =>
      some (((List.insertionSort qscoreGE surv).map (fun r => r.symbol)).take targetKeep)

/-- C2: for every row set and starting percentile configuration (with a
positive step), both adaptive narrowing loops terminate within the
`floorGap`-bounded number of relaxation steps — the fueled loop returns a
result with fuel `advPct + dolPct + atrPct + 1` — and the returned symbol
list has length at most `target_keep` (for v1 this needs the configured
`target_keep` to dominate the empty-shortlist fallback slice
`max(50, min_keep // 2)`, which holds for both shipped configurations
200/120 and 2000/1000). -/
theorem narrowing_terminates_and_bounded :
    ∀ (rows wrows : List FeatureRow)
      (a d t step minKeep targetKeep wa wd wt wstep wmin wtarget : ℕ) (laneRet laneRange : ℚ),
      1 ≤ step → 1 ≤ wstep → max 50 (minKeep / 2) ≤ targetKeep →
      (∃ syms, screen_shortlist rows a d t step minKeep targetKeep = some syms
          ∧ syms.length ≤ targetKeep)
      ∧ (∃ kept,
          prefilter_symbols_model wrows wa wd wt wstep wmin wtarget laneRet laneRange = some kept
          ∧ kept.length ≤ wtarget) := by
  intro rows wrows a d t step minKeep targetKeep wa wd wt wstep wmin wtarget laneRet laneRange
  intro hstep hwstep hfb
  constructor
  · have hsome := relaxLoop_isSome (survivors_v1 rows) minKeep step hstep
      (a + d + t + 1) a d t (by unfold floorGap; omega)
    obtain ⟨res, hres⟩ := Option.isSome_iff_exists.mp hsome
    obtain ⟨surv, ra, rd, rt⟩ := res
    unfold screen_shortlist
    rw [hres]
    dsimp only
    by_cases hsym :
        ((List.insertionSort featLE_v1 surv).map (fun r => r.symbol)).take targetKeep = []
    · rw [if_pos hsym]
      refine ⟨_, rfl, ?_⟩
      calc (((List.insertionSort featLE_v1 rows).map (fun r => r.symbol)).take
              (max 50 (minKeep / 2))).length
          ≤ max 50 (minKeep / 2) := List.length_take_le _ _
        _ ≤ targetKeep := hfb
    · rw [if_neg hsym]
      exact ⟨_, rfl, List.length_take_le _ _⟩
  · by_cases hw : wrows = []
    · refine ⟨[], ?_, by simp⟩
      unfold prefilter_symbols_model
      rw [if_pos hw]
    · have hsome := relaxLoop_isSome (survivors_worker wrows laneRet laneRange) wmin wstep hwstep
        (wa + wd + wt + 1) wa wd wt (by unfold floorGap; omega)
      obtain ⟨res, hres⟩ := Option.isSome_iff_exists.mp hsome
      obtain ⟨surv, ra, rd, rt⟩ := res
      unfold prefilter_symbols_model
      rw [if_neg hw, hres]
      dsimp only
      exact ⟨_, rfl, List.length_take_le _ _⟩

theorem narrowing_terminates_and_bounded_witness :
    ∃ syms,
      screen_shortlist
        [{ symbol := "AAA", price := 2, adv := 1000000, avg_dollar := 2000000, atr_pct := 9/100,
           ret_5d := 1/4, ret_21d := 1/2, breakout20 := true }]
        40 40 60 5 120 200 = some syms ∧ syms.length ≤ 200 :=
  (narrowing_terminates_and_bounded
    [{ symbol := "AAA", price := 2, adv := 1000000, avg_dollar := 2000000, atr_pct := 9/100,
       ret_5d := 1/4, ret_21d := 1/2, breakout20 := true }]
    [] 40 40 60 5 120 200 40 40 60 5 120 200 (3/20) (2/25)
    (by norm_num) (by norm_num) (by norm_num)).1

/-- A scored candidate as assembled by the screeners (fields used by the
final sorts and the cold-tape recovery pass). -/
structure Cand where
  ticker : String := ""
  symbol : String := ""
  price : ℚ := 0
  score : ℤ := 0
  rel_vol_30m : ℚ := 0
  action : TradeAction := TradeAction.MONITOR
  cold_tape_enhanced : Bool := false
  confidence : ℤ := 0
deriving DecidableEq

/-- The v2 final sort key
`(-x["score"], -x["rel_vol_30m"], x["price"], x["ticker"])`, compared
lexicographically as Python compares tuples. -/
def v2key (c : Cand) : ℤ ×ₗ ℚ ×ₗ ℚ ×ₗ String :=
  toLex (-c.score, toLex (-c.rel_vol_30m, toLex (c.price, c.ticker)))

/-- v2 final sort relation. -/
def candLE_v2 (a b : Cand) : Prop := v2key a ≤ v2key b

instance : DecidableRel candLE_v2 :=
  fun a b => inferInstanceAs (Decidable (v2key a ≤ v2key b))

instance : IsTotal Cand candLE_v2 := ⟨fun a b => le_total (v2key a) (v2key b)⟩

instance : IsTrans Cand candLE_v2 := ⟨fun _ _ _ h1 h2 => le_trans h1 h2⟩

/-- `UniverseScreenerV2.screen_universe_fast` final assembly: stable sort by
`v2key`, then `candidates[:limit]`. -/
def assemble_v2 (cands : List Cand) (limit : ℕ) : List Cand :=
  (List.insertionSort candLE_v2 cands).take limit

/-- The v1 final sort key `(x["score"], x["price"], x["symbol"])`
(`candidates.sort(..., reverse=True)`). -/
def v1key (c : Cand) : ℤ ×ₗ ℚ ×ₗ String := toLex (c.score, toLex (c.price, c.symbol))

/-- v1 final sort relation (descending, because of `reverse=True`). -/
def candGE_v1 (a b : Cand) : Prop := v1key b ≤ v1key a

instance : DecidableRel candGE_v1 :=
  fun a b => inferInstanceAs (Decidable (v1key b ≤ v1key a))

instance : IsTotal Cand candGE_v1 := ⟨fun a b => le_total (v1key b) (v1key a)⟩

instance : IsTrans Cand candGE_v1 := ⟨fun _ _ _ h1 h2 => le_trans h2 h1⟩

/-- `UniverseScreener.screen_universe` final assembly (before cold-tape
recovery): sort descending by `(score, price, symbol)`, then
`candidates[:limit]`. -/
def assemble_v1 (cands : List Cand) (limit : ℕ) : List Cand :=
  (List.insertionSort candGE_v1 cands).take limit

/-- The final ordering exactly as the specification words it: higher score
first, ties broken by higher relative volume, then by lower price, then by
ascending symbol.  (Written from the spec sentence, to be compared with the
comparators of the code.) -/
def claimOrder (a b : Cand) : Prop :=
  b.score < a.score ∨
    (a.score = b.score ∧ (b.rel_vol_30m < a.rel_vol_30m ∨
      (a.rel_vol_30m = b.rel_vol_30m ∧ (a.price < b.price ∨
        (a.price = b.price ∧ (a.ticker < b.ticker ∨ a.ticker = b.ticker))))))

instance : DecidableRel claimOrder := fun a b => by
  unfold claimOrder
  infer_instance

/-- The ordering the v1 assembler actually produces: descending
lexicographic `(score, price, symbol)` — score ties are broken by HIGHER
price and DESCENDING symbol, with no relative-volume tie-break. -/
def v1DescOrder (a b : Cand) : Prop :=
  b.score < a.score ∨
    (a.score = b.score ∧ (b.price < a.price ∨
      (a.price = b.price ∧ (b.symbol < a.symbol ∨ a.symbol = b.symbol))))

instance : DecidableRel v1DescOrder := fun a b => by
  unfold v1DescOrder
  infer_instance

theorem candLE_v2_claimOrder (a b : Cand) (h : candLE_v2 a b) : claimOrder a b := by
  unfold candLE_v2 v2key at h
  rw [Prod.Lex.le_iff] at h
  dsimp only at h
  rcases h with h | ⟨h1, h2⟩
  · exact Or.inl (neg_lt_neg_iff.mp h)
  · have hs : a.score = b.score := neg_inj.mp h1
    rw [Prod.Lex.le_iff] at h2
    dsimp only at h2
    rcases h2 with h2 | ⟨h21, h22⟩
    · exact Or.inr ⟨hs, Or.inl (neg_lt_neg_iff.mp h2)⟩
    · have hrv : a.rel_vol_30m = b.rel_vol_30m := neg_inj.mp h21
      rw [Prod.Lex.le_iff] at h22
      dsimp only at h22
      rcases h22 with h22 | ⟨h31, h32⟩
      · exact Or.inr ⟨hs, Or.inr ⟨hrv, Or.inl h22⟩⟩
      · exact Or.inr ⟨hs, Or.inr ⟨hrv, Or.inr ⟨h31, lt_or_eq_of_le h32⟩⟩⟩

theorem candGE_v1_v1DescOrder (a b : Cand) (h : candGE_v1 a b) : v1DescOrder a b := by
  unfold candGE_v1 v1key at h
  rw [Prod.Lex.le_iff] at h
  dsimp only at h
  rcases h with h | ⟨h1, h2⟩
  · exact Or.inl h
  · rw [Prod.Lex.le_iff] at h2
    dsimp only at h2
    rcases h2 with h2 | ⟨h21, h22⟩
    · exact Or.inr ⟨h1.symm, Or.inl h2⟩
    · exact Or.inr ⟨h1.symm, Or.inr ⟨h21.symm, Or.imp_right Eq.symm (lt_or_eq_of_le h22)⟩⟩

/-- C4 counterexample: two candidates with equal score and equal relative
volume; the v1 assembler (`universe_screener.py` line 770) puts the
HIGHER-priced one first, so its output violates the claimed
lower-price-first tie-break. -/
theorem assembler_order_claim_fails_on_v1 :
    assemble_v1
        [{ ticker := "AAA", symbol := "AAA", price := 1, score := 60, rel_vol_30m := 1 },
         { ticker := "BBB", symbol := "BBB", price := 2, score := 60, rel_vol_30m := 1 }] 2
      = [{ ticker := "BBB", symbol := "BBB", price := 2, score := 60, rel_vol_30m := 1 },
         { ticker := "AAA", symbol := "AAA", price := 1, score := 60, rel_vol_30m := 1 }]
    ∧ ¬ claimOrder
        { ticker := "BBB", symbol := "BBB", price := 2, score := 60, rel_vol_30m := 1 }
        { ticker := "AAA", symbol := "AAA", price := 1, score := 60, rel_vol_30m := 1 } := by
  constructor
  · decide
  · decide

/-- C4 (amended): the v2 assembler emits candidates ordered exactly as the
claim states (score desc, relvol desc, price asc, ticker asc) and truncated
to `limit`; the v1 assembler instead emits candidates ordered by descending
`(score, price, symbol)` — no relvol tie-break, higher price first on score
ties — truncated to `limit`. -/
theorem assembler_orders_and_truncates :
    ∀ (cands : List Cand) (limit : ℕ),
      (List.Pairwise claimOrder (assemble_v2 cands limit)
        ∧ (assemble_v2 cands limit).length ≤ limit)
      ∧ (List.Pairwise v1DescOrder (assemble_v1 cands limit)
        ∧ (assemble_v1 cands limit).length ≤ limit) := by
  intro cands limit
  refine ⟨⟨?_, List.length_take_le _ _⟩, ⟨?_, List.length_take_le _ _⟩⟩
  · have hs : List.Pairwise candLE_v2 (List.insertionSort candLE_v2 cands) :=
      List.sorted_insertionSort candLE_v2 cands
    exact (hs.imp (fun h => candLE_v2_claimOrder _ _ h)).sublist (List.take_sublist limit _)
  · have hs : List.Pairwise candGE_v1 (List.insertionSort candGE_v1 cands) :=
      List.sorted_insertionSort candGE_v1 cands
    exact (hs.imp (fun h => candGE_v1_v1DescOrder _ _ h)).sublist (List.take_sublist limit _)

theorem sorted_perm_eq_of_antisymm_mem {α : Type} (r : α → α → Prop) :
    ∀ (l₁ l₂ : List α), l₁.Perm l₂ → List.Sorted r l₁ → List.Sorted r l₂ →
      (∀ a, a ∈ l₁ → ∀ b, b ∈ l₁ → r a b → r b a → a = b) → l₁ = l₂ := by
  intro l₁
  induction l₁ with
  | nil =>
    intro l₂ hp _ _ _
    exact hp.nil_eq
  | cons a t₁ ih =>
    intro l₂ hp hs₁ hs₂ hanti
    cases l₂ with
    | nil =>
      have := hp.eq_nil
      simp at this
    | cons b t₂ =>
      have ha2 : a ∈ b :: t₂ := hp.subset (List.mem_cons_self a t₁)
      have hb1 : b ∈ a :: t₁ := hp.symm.subset (List.mem_cons_self b t₂)
      have hab : a = b := by
        rcases List.mem_cons.mp ha2 with h | hat2
        · exact h
        rcases List.mem_cons.mp hb1 with h | hbt1
        · exact h.symm
        · exact hanti a (List.mem_cons_self a t₁) b hb1
            (List.rel_of_sorted_cons hs₁ b hbt1) (List.rel_of_sorted_cons hs₂ a hat2)
      subst hab
      have ht : t₁.Perm t₂ := hp.cons_inv
      have htl := ih t₂ ht hs₁.of_cons hs₂.of_cons
        (fun x hx y hy hr hr2 =>
          hanti x (List.mem_cons_of_mem a hx) y (List.mem_cons_of_mem a hy) hr hr2)
      rw [htl]

/-- C7: the assembled output is a deterministic function of the scored
candidate multiset — any two runs over the same snapshot, seed and
parameters that score the same candidates (with their distinct tickers)
assemble the identical item list, in the same order with the same scores,
regardless of the order in which the candidates were produced. -/
theorem pipeline_output_reproducible :
    ∀ (l₁ l₂ : List Cand) (limit : ℕ),
      l₁.Perm l₂ → List.Pairwise (fun a b => a.ticker ≠ b.ticker) l₁ →
      assemble_v2 l₁ limit = assemble_v2 l₂ limit := by
  intro l₁ l₂ limit hperm hdist
  unfold assemble_v2
  congr 1
  apply sorted_perm_eq_of_antisymm_mem candLE_v2
  · exact (List.perm_insertionSort _ l₁).trans (hperm.trans (List.perm_insertionSort _ l₂).symm)
  · exact List.sorted_insertionSort _ _
  · exact List.sorted_insertionSort _ _
  · intro x hx y hy hxy hyx
    have hkey : v2key x = v2key y := le_antisymm hxy hyx
    have ht : x.ticker = y.ticker := by
      have := congrArg (fun k => (ofLex ((ofLex ((ofLex k).2)).2)).2) hkey
      simpa [v2key] using this
    by_contra hne
    have hx1 : x ∈ l₁ := (List.mem_insertionSort _).mp hx
    have hy1 : y ∈ l₁ := (List.mem_insertionSort _).mp hy
    exact (hdist.forall (fun _ _ h => Ne.symm h) hx1 hy1 hne) ht

theorem pipeline_output_reproducible_witness :
    assemble_v2
        [{ ticker := "AAA", symbol := "AAA", price := 1, score := 80, rel_vol_30m := 2 },
         { ticker := "BBB", symbol := "BBB", price := 2, score := 70, rel_vol_30m := 1 }] 5
      = assemble_v2
        [{ ticker := "BBB", symbol := "BBB", price := 2, score := 70, rel_vol_30m := 1 },
         { ticker := "AAA", symbol := "AAA", price := 1, score := 80, rel_vol_30m := 2 }] 5 :=
  pipeline_output_reproducible
    [{ ticker := "AAA", symbol := "AAA", price := 1, score := 80, rel_vol_30m := 2 },
     { ticker := "BBB", symbol := "BBB", price := 2, score := 70, rel_vol_30m := 1 }]
    [{ ticker := "BBB", symbol := "BBB", price := 2, score := 70, rel_vol_30m := 1 },
     { ticker := "AAA", symbol := "AAA", price := 1, score := 80, rel_vol_30m := 2 }]
    5 (by decide) (by decide)

/-- File-system operations performed by the JSON emitters. -/
inductive FsOp where
  | openTrunc : String → FsOp
  | writeData : String → String → FsOp
  | fsyncFile : String → FsOp
  | renameFile : String → String → FsOp
deriving DecidableEq

/-- Contents of the output directory, by path. -/
def FsState : Type := String → Option String

/-- Effect of one file-system operation: opening with mode `"w"` truncates,
writes append to the open file, `os.replace` atomically renames. -/
def applyOp (fs : FsState) : FsOp → FsState
  | FsOp.openTrunc p => fun q => if q = p then some "" else fs q
  | FsOp.writeData p d => fun q => if q = p then some ((fs p).getD "" ++ d) else fs q
  | FsOp.fsyncFile _ => fs
  | FsOp.renameFile src dst =>
    fun q => if q = dst then fs src else if q = src then none else fs q

/-- Run a sequence of operations; a polling reader observes the state after
any prefix. -/
def runOps (fs : FsState) (ops : List FsOp) : FsState := ops.foldl applyOp fs

/-- `write_json_atomic` (`universe_screener_v2.py`): `tempfile.mkstemp` in
the destination directory, write the payload, flush + `os.fsync`, then
`os.replace` over the destination. -/
def write_json_atomic_ops (tmp dest payload : String) : List FsOp :=
  [FsOp.openTrunc tmp, FsOp.writeData tmp payload, FsOp.fsyncFile tmp, FsOp.renameFile tmp dest]

/-- `write_final_json` (`universe_screener.py`): `open(json_out_path, "w")`
truncates the destination in place, then the payload is written (at the OS
level possibly in several chunks). -/
def write_final_json_ops (dest : String) (chunks : List String) : List FsOp :=
  FsOp.openTrunc dest :: chunks.map (FsOp.writeData dest)

/-- C5 (amended, v2 half): under the atomic-write primitive a reader polling
the destination only ever observes the previous content or the complete new
payload, never a truncated document. -/
theorem atomic_write_never_truncated :
    ∀ (tmp dest payload : String) (fs0 : FsState), tmp ≠ dest →
      ∀ k, runOps fs0 ((write_json_atomic_ops tmp dest payload).take k) dest = fs0 dest
           ∨ runOps fs0 ((write_json_atomic_ops tmp dest payload).take k) dest = some payload := by
  intro tmp dest payload fs0 hne k
  have hdt : dest ≠ tmp := fun h => hne h.symm
  match k with
  | 0 => exact Or.inl rfl
  | 1 =>
    left
    simp [write_json_atomic_ops, runOps, applyOp, hdt]
  | 2 =>
    left
    simp [write_json_atomic_ops, runOps, applyOp, hdt]
  | 3 =>
    left
    simp [write_json_atomic_ops, runOps, applyOp, hdt]
  | (n + 4) =>
    right
    simp [write_json_atomic_ops, runOps, applyOp, hdt]

theorem atomic_write_never_truncated_witness :
    runOps (fun q => if q = "v2.json" then some "[1]" else none)
        ((write_json_atomic_ops ".json_tmp_x" "v2.json" "[2]").take 2) "v2.json" = some "[1]"
    ∨ runOps (fun q => if q = "v2.json" then some "[1]" else none)
        ((write_json_atomic_ops ".json_tmp_x" "v2.json" "[2]").take 2) "v2.json" = some "[2]" := by
  have h := atomic_write_never_truncated ".json_tmp_x" "v2.json" "[2]"
    (fun q => if q = "v2.json" then some "[1]" else none) (by decide) 2
  simpa using h

/-- C5 counterexample: the v1 emitter `write_final_json` writes the
destination in place; after the truncating `open` and the first chunk a
polling reader observes `"[9"` — neither the old document `"[1,2,3]"` nor
the new one `"[9]"`, i.e. a truncated document.  So not every emission goes
through the atomic-write primitive. -/
theorem inplace_write_exposes_truncation :
    runOps (fun q => if q = "scan.json" then some "[1,2,3]" else none)
        ((write_final_json_ops "scan.json" ["[9", "]"]).take 2) "scan.json" = some "[9"
    ∧ some "[9" ≠ some "[1,2,3]" ∧ some "[9" ≠ some "[9]" := by
  refine ⟨?_, by decide, by decide⟩
  rfl

/-- The mutable globals of the v1 scan loop. -/
structure RunState where
  candidates : List Cand
  partialResults : List Cand
deriving DecidableEq

/-- One iteration tail of the v1 scoring loop: `candidates.append(candidate)`
followed by `partial_results = candidates.copy()` — the global reference is
swapped to a fresh copy, never mutated in place. -/
def score_loop_step (st : RunState) (c : Cand) : RunState :=
  let cands := st.candidates ++ [c]
  { candidates := cands, partialResults := cands }

/-- The scoring loop over the produced candidates, from the empty globals. -/
def score_loop (cs : List Cand) : RunState :=
  cs.foldl score_loop_step { candidates := [], partialResults := [] }

/-- A JSON document as emitted by the writers: `write_final_json` dumps a
bare array, the v2 writer dumps an object with `items` and `meta.partial`. -/
inductive EmittedDoc where
  | bareArray : List Cand → EmittedDoc
  | payloadObj : List Cand → Bool → EmittedDoc
deriving DecidableEq

/-- `sigterm_handler` (`universe_screener.py`):
`write_final_json(partial_results)` serializes the partial-results list
itself. -/
def sigterm_emit (st : RunState) : EmittedDoc := EmittedDoc.bareArray st.partialResults

/-- The `items` a reader finds in an emitted document. -/
def emittedItems : EmittedDoc → List Cand
  | EmittedDoc.bareArray items => items
  | EmittedDoc.payloadObj items _ => items

/-- The `meta.partial` field of an emitted document, when present. -/
def metaPartialFlag : EmittedDoc → Option Bool
  | EmittedDoc.bareArray _ => none
  | EmittedDoc.payloadObj _ b => some b

theorem score_loop_aux : ∀ (cs acc : List Cand),
    cs.foldl score_loop_step { candidates := acc, partialResults := acc }
      = { candidates := acc ++ cs, partialResults := acc ++ cs } := by
  intro cs
  induction cs with
  | nil =>
    intro acc
    simp
  | cons c rest ih =>
    intro acc
    rw [List.foldl_cons]
    have hstep : score_loop_step { candidates := acc, partialResults := acc } c
        = { candidates := acc ++ [c], partialResults := acc ++ [c] } := rfl
    rw [hstep, ih (acc ++ [c])]
    simp

theorem score_loop_eq (cs : List Cand) :
    score_loop cs = { candidates := cs, partialResults := cs } := by
  unfold score_loop
  rw [score_loop_aux cs []]
  simp

/-- C6 counterexample: the payload emitted by the v1 termination handler is
the bare partial-results array; it carries no `meta` object at all, so
`meta.partial = true` does not hold of it. -/
theorem sigterm_payload_lacks_partial_flag :
    metaPartialFlag (sigterm_emit (score_loop
      [{ ticker := "AAA", symbol := "AAA", price := 2, score := 80, rel_vol_30m := 1 }]))
      ≠ some true := by
  decide

/-- C6 (amended): after every iteration of the scoring loop the
partial-results reference — swapped to a fresh copy, not mutated in place —
holds exactly the candidates scored so far, and a termination signal raised
after K symbols have been scored makes the handler emit exactly those K
candidates (items length exactly K); the emitted document, however, is a
bare array with no `meta.partial` field. -/
theorem sigterm_emits_exactly_scored :
    ∀ (scored : List Cand) (k : ℕ),
      (score_loop scored).partialResults = (score_loop scored).candidates
      ∧ emittedItems (sigterm_emit (score_loop (scored.take k))) = scored.take k
      ∧ (emittedItems (sigterm_emit (score_loop (scored.take k)))).length = min k scored.length
      ∧ metaPartialFlag (sigterm_emit (score_loop (scored.take k))) = none := by
  intro scored k
  rw [score_loop_eq scored, score_loop_eq (scored.take k)]
  refine ⟨rfl, rfl, ?_, rfl⟩
  simp [sigterm_emit, emittedItems]

/-- The optional 30-minute relative-volume enrichment of the v1 scan loop
(`universe_screener.py`, "Optional minute relvol (never used to DROP)"):
the whole block sits in `try/except: pass` with `relvol = 0.0` as default;
`bars` is the external `minute_bars` result (its volume column). -/
def relvol_from_bars_v1 (adv : ℚ) (bars : Except Unit (List ℚ)) : ℚ :=
  match bars with
  | Except.error _ => 0
  | Except.ok mins =>
    if 5 ≤ mins.length then
      let last30 := (mins.drop (mins.length - 30)).sum
      let avg_min := if 0 < adv then adv / (13/2 * 60) else 0
      if 0 < avg_min then last30 / (avg_min * 30) else 0
    else 0

/-- The same block in `UniverseScreenerV2.screen_universe_fast`, whose
default is `relvol = 1.0`. -/
def relvol_from_bars_v2 (adv : ℚ) (bars : Except Unit (List ℚ)) : ℚ :=
  match bars with
  | Except.error _ => 1
  | Except.ok mins =>
    if 5 ≤ mins.length then
      let last30 := (mins.drop (mins.length - 30)).sum
      let avg_min := if 0 < adv then adv / (13/2 * 60) else 0
      if 0 < avg_min then last30 / (avg_min * 30) else 1
    else 1

/-- The candidate a v1 loop iteration appends for a row (the fields carried
into the final sorts): score `int(round(score_row(...)))`, tape-validated
action, rounded price and relvol. -/
def cand_of_v1 (row : ScoreRow) (relvol spark_rv : ℚ) : Cand :=
  let sc := score_row row relvol spark_rv
  { ticker := row.symbol
    symbol := row.symbol
    price := pyRoundTo (qor0 row.price) 2
    score := pyRound sc
    rel_vol_30m := pyRoundTo (max relvol 1) 1
    action := map_action_with_tape sc row.live_price row.live_vwap row.ema9_ge_ema20 }

/-- One v1 loop iteration: relvol enrichment (recovered to the default on
failure), then scoring and candidate construction. -/
def scan_symbol_v1 (row : ScoreRow) (bars : Except Unit (List ℚ)) (spark_rv : ℚ) : Cand :=
  cand_of_v1 row (relvol_from_bars_v1 (qor0 row.adv) bars) spark_rv

/-- The v1 scan loop over all shortlisted rows, with the per-symbol external
lookups given by oracles. -/
def candidates_loop_v1 (rows : List ScoreRow) (bars : String → Except Unit (List ℚ))
    (spark : String → ℚ) : List Cand :=
  rows.map (fun r => scan_symbol_v1 r (bars r.symbol) (spark r.symbol))

/-- The late short-interest enrichment pass of `screen_universe`: for the
first `min(enrich_max, len(candidates))` candidates `short_metrics` is
looked up; an exception hits `except: continue`, leaving the candidate
untouched; on success the score is raised by the squeeze bonus, capped at
100. -/
def enrich_pass (cands : List Cand) (sm : String → Except Unit ShortMetrics) (enrichMax : ℕ) :
    List Cand :=
  (cands.take enrichMax).map (fun c =>
    match sm c.symbol with
    | Except.error _ => c
    | Except.ok m => { c with score := enriched_score c.score m })
  ++ cands.drop enrichMax

/-- C8: per-symbol enrichment failures never abort the batch or drop a
symbol: the scan loop scores exactly one candidate per shortlisted row
whatever the minute-bars oracle returns; a failing minute-bars lookup makes
the loop use the default relative volume (0.0 in v1, 1.0 in v2) and still
emit the candidate of that symbol; the late short-metrics pass keeps the batch
length, and when every lookup in it raises it leaves the candidate list
exactly unchanged. -/
theorem enrichment_failure_never_aborts :
    ∀ (rows : List ScoreRow) (bars : String → Except Unit (List ℚ)) (spark : String → ℚ)
      (cands : List Cand) (sm : String → Except Unit ShortMetrics) (enrichMax : ℕ) (adv : ℚ),
      (candidates_loop_v1 rows bars spark).length = rows.length
      ∧ relvol_from_bars_v1 adv (Except.error ()) = 0
      ∧ relvol_from_bars_v2 adv (Except.error ()) = 1
      ∧ (∀ r, r ∈ rows → bars r.symbol = Except.error () →
          cand_of_v1 r 0 (spark r.symbol) ∈ candidates_loop_v1 rows bars spark)
      ∧ (enrich_pass cands sm enrichMax).length = cands.length
      ∧ ((∀ c, c ∈ cands → sm c.symbol = Except.error ()) →
          enrich_pass cands sm enrichMax = cands) := by
  intro rows bars spark cands sm enrichMax adv
  refine ⟨?_, rfl, rfl, ?_, ?_, ?_⟩
  · simp [candidates_loop_v1]
  · intro r hr herr
    have hmem := List.mem_map_of_mem
      (fun r => scan_symbol_v1 r (bars r.symbol) (spark r.symbol)) hr
    unfold candidates_loop_v1
    have heq : scan_symbol_v1 r (bars r.symbol) (spark r.symbol)
        = cand_of_v1 r 0 (spark r.symbol) := by
      unfold scan_symbol_v1
      rw [herr]
      rfl
    rw [← heq]
    simpa using hmem
  · simp only [enrich_pass, List.length_append, List.length_map, List.length_take,
      List.length_drop]
    omega
  · intro hfail
    unfold enrich_pass
    have hmap : (cands.take enrichMax).map (fun c =>
        match sm c.symbol with
        | Except.error _ => c
        | Except.ok m => { c with score := enriched_score c.score m }) = cands.take enrichMax := by
      have hid : ∀ c ∈ cands.take enrichMax,
          (match sm c.symbol with
           | Except.error _ => c
           | Except.ok m => { c with score := enriched_score c.score m }) = id c := by
        intro c hc
        have := hfail c ((List.take_sublist _ _).subset hc)
        rw [this]
        rfl
      rw [List.map_congr_left hid, List.map_id]
    rw [hmap, List.take_append_drop]

theorem enrichment_failure_never_aborts_witness :
    enrich_pass [{ ticker := "AAA", symbol := "AAA", price := 2, score := 80 }]
        (fun _ => Except.error ()) 800
      = [{ ticker := "AAA", symbol := "AAA", price := 2, score := 80 }] :=
  (enrichment_failure_never_aborts [] (fun _ => Except.error ()) (fun _ => 0)
      [{ ticker := "AAA", symbol := "AAA", price := 2, score := 80 }]
      (fun _ => Except.error ()) 800 0).2.2.2.2.2
    (fun _ _ => rfl)

/-- The relabelling of the cold-tape recovery branch. -/
def relabel_cold (c : Cand) : Cand :=
  { c with
    action := TradeAction.PRE_BREAKOUT
    cold_tape_enhanced := true
    confidence := max 50 (c.score - 5) }

/-- The backfill loop of the cold-tape recovery: collect candidates scoring
in the 55–64 band, stopping once `len(final) + len(prebreakout) ≥ limit`;
`n` counts the candidates collected so far. -/
def cold_tape_go (finalLen limit : ℕ) : List Cand → ℕ → List Cand
  | [], _ => []
  | c :: rest, n =>
    if 55 ≤ c.score ∧ c.score ≤ 64 then
      if limit ≤ finalLen + (n + 1) then [relabel_cold c]
      else relabel_cold c :: cold_tape_go finalLen limit rest (n + 1)
    else cold_tape_go finalLen limit rest n

/-- The tail of `UniverseScreener.screen_universe`: final sort, slice to
`limit`, and — in full-universe mode when `final` is short — the cold-tape
backfill scanning `candidates[len(final):min(len(candidates), limit*3)]`. -/
def screen_final_v1 (cands : List Cand) (limit : ℕ) (fullUniverseMode : Bool) : List Cand :=
  let sorted := List.insertionSort candGE_v1 cands
  let final := sorted.take limit
  if final.length < limit ∧ fullUniverseMode = true then
    final ++ cold_tape_go final.length limit
      ((sorted.take (min sorted.length (limit * 3))).drop final.length) 0
  else final

/-- C9: the cold-tape recovery branch can never add anything.  Its guard
`len(final) < limit` forces `final = candidates[:limit]` to contain every
sorted candidate, so the scanned slice
`candidates[len(final):min(len(candidates), limit*3)]` is empty and the
output is always exactly the plain sorted-and-truncated list — no candidate
in the 55–64 band is ever relabelled PRE_BREAKOUT or annotated as
cold-tape-sourced, contradicting the recovery that the log message in the code
announces. -/
theorem cold_tape_backfill_is_vacuous :
    ∀ (cands : List Cand) (limit : ℕ) (mode : Bool),
      screen_final_v1 cands limit mode = (List.insertionSort candGE_v1 cands).take limit := by
  intro cands limit mode
  simp only [screen_final_v1]
  split
  · rename_i hcond
    have hlen : (List.insertionSort candGE_v1 cands).length < limit := by
      have h1 := hcond.1
      rw [List.length_take] at h1
      omega
    have htake : (List.insertionSort candGE_v1 cands).take
        (min (List.insertionSort candGE_v1 cands).length (limit * 3))
        = List.insertionSort candGE_v1 cands := by
      apply List.take_of_length_le
      omega
    have hfinal_len : ((List.insertionSort candGE_v1 cands).take limit).length
        = (List.insertionSort candGE_v1 cands).length := by
      rw [List.length_take]
      omega
    rw [htake, hfinal_len, List.drop_length]
    simp [cold_tape_go]
  · rfl
